import Mathlib

/-!
Shallow embedding of the PathRAG ArangoDB graph storage adapter
(`src/arangodb_storage.py`, class `ArangoDBGraphStorage`).

The ArangoDB server state for one namespace is modelled as `Store`: an
association list of node documents keyed by `_key`, and an association list of
edge documents keyed by `_key`.  The backing database is shared-nothing from
the point of view of one operation, so each Python method becomes a pure Lean
function of the store.  Fallibility of the driver (connection loss, raised
exceptions) is modelled by a boolean `conn` oracle threaded through `dbCall`:
`conn = true` means every driver call succeeds, `conn = false` means the driver
call raises, which each method catches in its `try/except` block exactly as the
Python code does.

Edge documents store `_from`/`_to` as `"<namespace>_nodes/<id>"`.  Since the
collection prefix is one fixed string per adapter instance and string
concatenation with a fixed prefix is injective, the model stores only the node
id part (`src`, `tgt`); the AQL comparisons `edge._from == CONCAT(prefix, id)`
and the `SUBSTRING(edge._from, LENGTH(prefix), -1)` extraction become direct
comparison and direct use of the id.  Payload attribute keys are assumed not to
collide with the ArangoDB system attributes `_key`, `_from`, `_to`.
-/

namespace PathRAG

/-- JSON-shaped attribute values handled by `_serialize_data`: strings,
numbers, booleans, null, numpy arrays (numeric vectors), nested sequences and
nested mappings.  Numbers are modelled as integers; the claims under study do
not depend on numeric representation. -/
inductive Val where
  | str : String → Val
  | int : Int → Val
  | bool : Bool → Val
  | null : Val
  | ndarray : List Int → Val
  | list : List Val → Val
  | dict : List (String × Val) → Val


/-- A document is a Python dict: key/value pairs in insertion order, keys
unique. -/
abbrev Doc := List (String × Val)

mutual
/-- Model of `_serialize_data` (arangodb_storage.py lines 197-206): numpy arrays become
plain lists via `tolist()`, dicts recurse key-wise, lists recurse element-wise,
all other scalars pass through unchanged. -/
def serialize_data : Val → Val
  | .ndarray xs => .list (xs.map Val.int)
  | .dict kvs => .dict (serializePairs kvs)
  | .list xs => .list (serializeList xs)
  | .str s => .str s
  | .int n => .int n
  | .bool b => .bool b
  | .null => .null

/-- Element-wise serialization of a Python list. -/
def serializeList : List Val → List Val
  | [] => []
  | v :: vs => serialize_data v :: serializeList vs

/-- Key-wise serialization of a Python dict. -/
def serializePairs : List (String × Val) → List (String × Val)
  | [] => []
  | (k, v) :: kvs => (k, serialize_data v) :: serializePairs kvs
end

/-- Look up the value bound to key `k` in an association list. -/
def lookupKey {α : Type} : List (String × α) → String → Option α
  | [], _ => none
  | (k, v) :: rest, k₀ => if k = k₀ then some v else lookupKey rest k₀

/-- Python dict insertion: re-inserting an existing key updates its value in
place (keeping its position), a new key is appended at the end. -/
def dictInsert (d : Doc) (k : String) (v : Val) : Doc :=
  match d with
  | [] => [(k, v)]
  | (k₀, v₀) :: rest =>
      if k₀ = k then (k, v) :: rest else (k₀, v₀) :: dictInsert rest k v

/-- Python dict construction from a sequence of key/value pairs (later value
for a repeated key wins, first position is kept), as in the literal
`\x7b"_key": node_id, **serialized_data\x7d`. -/
def pyDict (kvs : List (String × Val)) : Doc :=
  kvs.foldl (fun d p => dictInsert d p.1 p.2) []

/-- An edge document: `_from` and `_to` hold node ids (collection prefix
stripped, see the file comment), plus the serialized payload attributes. -/
structure EdgeDoc where
  src : String
  tgt : String
  data : Doc


/-- The ArangoDB state for one namespace: the `<ns>_nodes` collection and the
`<ns>_edges` collection, each an association list from `_key` to document. -/
structure Store where
  nodes : List (String × Doc)
  edges : List (String × EdgeDoc)


/-- The store with both collections empty. -/
def emptyStore : Store := { nodes := [], edges := [] }

/-- One call into the ArangoDB driver: succeeds with its value when the
connection is healthy, raises otherwise. -/
def dbCall {α : Type} (conn : Bool) (v : α) : Except String α :=
  if conn then .ok v else .error "ArangoDB connection failed"

/-- Model of `collection.insert(doc, overwrite=True)`: the document with this `_key` is
replaced in place if present, appended otherwise. -/
def insertOverwrite {α : Type} : List (String × α) → String → α → List (String × α)
  | [], k, v => [(k, v)]
  | (k₀, v₀) :: rest, k, v =>
      if k₀ = k then (k, v) :: rest else (k₀, v₀) :: insertOverwrite rest k v

/-- Model of `has_node` (lines 210-216): `nodes_collection.has(node_id)`, any raised
exception is logged and turned into `false`. -/
def has_node (conn : Bool) (s : Store) (node_id : String) : Bool :=
  match dbCall conn (lookupKey s.nodes node_id).isSome with
  | .ok b => b
  | .error _ => false

/-- Derivation of an edge storage key from the ordered endpoint pair, as in
`edge_key = f"\x7bsource_node_id\x7d_to_\x7btarget_node_id\x7d"`. -/
def edgeKey (source_node_id target_node_id : String) : String :=
  source_node_id ++ "_to_" ++ target_node_id

/-- Model of `has_edge` (lines 218-225): key lookup on the derived edge key, exceptions
become `false`. -/
def has_edge (conn : Bool) (s : Store) (source_node_id target_node_id : String) : Bool :=
  match dbCall conn (lookupKey s.edges (edgeKey source_node_id target_node_id)).isSome with
  | .ok b => b
  | .error _ => false

/-- Model of `get_node` (lines 227-234): point read returning the document or `none`;
exceptions become `none`. -/
def get_node (conn : Bool) (s : Store) (node_id : String) : Option Doc :=
  match dbCall conn (lookupKey s.nodes node_id) with
  | .ok r => r
  | .error _ => none

/-- Model of `get_edge` (lines 272-280): point read by derived key; exceptions become
`none`. -/
def get_edge (conn : Bool) (s : Store) (source_node_id target_node_id : String) : Option EdgeDoc :=
  match dbCall conn (lookupKey s.edges (edgeKey source_node_id target_node_id)) with
  | .ok r => r
  | .error _ => none

/-- The out-edge rows of the degree/edge queries: edges whose `_from` matches
the node. -/
def outEdges (E : List (String × EdgeDoc)) (node_id : String) : List (String × EdgeDoc) :=
  E.filter (fun p => p.2.src == node_id)

/-- The in-edge rows: edges whose `_to` matches the node. -/
def inEdges (E : List (String × EdgeDoc)) (node_id : String) : List (String × EdgeDoc) :=
  E.filter (fun p => p.2.tgt == node_id)

/-- Model of `node_degree` (lines 236-260): one AQL query computing
`LENGTH(out_edges) + LENGTH(in_edges)`; exceptions become `0`. -/
def node_degree (conn : Bool) (s : Store) (node_id : String) : Nat :=
  match dbCall conn ((outEdges s.edges node_id).length + (inEdges s.edges node_id).length) with
  | .ok n => n
  | .error _ => 0

/-- Model of `edge_degree` (lines 262-270): sum of the two endpoint degrees. -/
def edge_degree (conn : Bool) (s : Store) (src_id tgt_id : String) : Nat :=
  node_degree conn s src_id + node_degree conn s tgt_id

/-- The `(source, target)` projection used by the edge-listing queries:
`[SUBSTRING(edge._from, ...), SUBSTRING(edge._to, ...)]`. -/
def edgePairs (E : List (String × EdgeDoc)) : List (String × String) :=
  E.map (fun p => (p.2.src, p.2.tgt))

/-- Model of `get_node_out_edges` (lines 328-344): rows with `_from` matching the node;
exceptions become `[]`. -/
def get_node_out_edges (conn : Bool) (s : Store) (node_id : String) : List (String × String) :=
  match dbCall conn (edgePairs (outEdges s.edges node_id)) with
  | .ok r => r
  | .error _ => []

/-- Model of `get_node_in_edges` (lines 310-326): rows with `_to` matching the node;
exceptions become `[]`. -/
def get_node_in_edges (conn : Bool) (s : Store) (node_id : String) : List (String × String) :=
  match dbCall conn (edgePairs (inEdges s.edges node_id)) with
  | .ok r => r
  | .error _ => []

/-- Model of `get_node_edges` (lines 282-308): one AQL query returning
`UNION(outbound, inbound)`.  AQL `UNION` concatenates its arguments and does
NOT remove duplicates (that is `UNION_DISTINCT`), so the result is the
outbound rows followed by the inbound rows; exceptions become `[]`. -/
def get_node_edges (conn : Bool) (s : Store) (node_id : String) : List (String × String) :=
  match dbCall conn (edgePairs (outEdges s.edges node_id) ++ edgePairs (inEdges s.edges node_id)) with
  | .ok r => r
  | .error _ => []

/-- The traversal steps available from vertex `cur`: each stored edge not yet
used on the current path contributes a step along its direction when `cur` is
its source and a step against its direction when `cur` is its target (AQL
`ANY` traversal with its default per-path edge uniqueness).  Each step carries
the edge key and the vertex reached. -/
def edgeSteps (E : List (String × EdgeDoc)) (used : List String) (cur : String) :
    List (String × String) :=
  E.foldr
    (fun p acc =>
      if used.contains p.1 then acc
      else
        (if p.2.src == cur then [(p.1, p.2.tgt)] else []) ++
          (if p.2.tgt == cur then [(p.1, p.2.src)] else []) ++ acc)
    []

/-- Number of rows produced by `FOR v, e, p IN 1..d ANY start`: one row per
traversal path of length 1 to `d` from `start`, no edge repeated within one
path. -/
def countPaths (E : List (String × EdgeDoc)) : Nat → String → List String → Nat
  | 0, _, _ => 0
  | d + 1, cur, used =>
      (edgeSteps E used cur).foldr
        (fun step acc => 1 + countPaths E d step.2 (step.1 :: used) + acc) 0

/-- Size of the bounded-depth (1..10 hops) traversal sample used by
`get_pagerank`. -/
def reachCount (s : Store) (node_id : String) : Nat :=
  countPaths s.edges 10 node_id []

/-- Model of `get_pagerank` (lines 346-365): `LENGTH(graph_data) > 0 ?
1.0 / LENGTH(graph_data) : 0.0`; exceptions become `0.0`.  Values are
modelled in `ℚ`. -/
def get_pagerank (conn : Bool) (s : Store) (node_id : String) : ℚ :=
  match dbCall conn (reachCount s node_id) with
  | .ok n => if n > 0 then (1 : ℚ) / n else 0
  | .error _ => 0

/-- The structured result returned by `upsert_node`. -/
structure NodeUpsertResult where
  node_id : String
  success : Bool
  error : Option String


/-- Model of `upsert_node` (lines 367-381): serializes the payload, builds
`\x7b"_key": node_id, **serialized_data\x7d` and inserts it with
`overwrite=True`; returns `\x7b"node_id", "success"\x7d` on success and
`\x7b"node_id", "success": False, "error"\x7d` when the driver raises (the
store is then unchanged). -/
def upsert_node (conn : Bool) (s : Store) (node_id : String) (node_data : Doc) :
    Store × NodeUpsertResult :=
  let document := pyDict (("_key", Val.str node_id) :: serializePairs node_data)
  match dbCall conn () with
  | .ok _ =>
      ({ s with nodes := insertOverwrite s.nodes node_id document },
        ⟨node_id, true, none⟩)
  | .error e => (s, ⟨node_id, false, some e⟩)

/-- The structured result returned by `upsert_edge`. -/
structure EdgeUpsertResult where
  edge_id : String
  success : Bool
  error : Option String


/-- Model of `upsert_edge` (lines 383-404): derives the key `<src>_to_<tgt>`, builds the
edge document with `_from`/`_to` pointing at the endpoint node ids, and inserts
it with `overwrite=True`; failures are captured in the result. -/
def upsert_edge (conn : Bool) (s : Store) (source_node_id target_node_id : String)
    (edge_data : Doc) : Store × EdgeUpsertResult :=
  let k := edgeKey source_node_id target_node_id
  match dbCall conn () with
  | .ok _ =>
      ({ s with
          edges := insertOverwrite s.edges k
            ⟨source_node_id, target_node_id, serializePairs edge_data⟩ },
        ⟨k, true, none⟩)
  | .error e => (s, ⟨k, false, some e⟩)

/-- Model of `delete_node` (lines 406-427): first one AQL statement removes every edge
whose `_from` or `_to` matches the node, then the node document is removed if
present (a missing node is only logged); every exception is caught and logged,
so the method never raises. -/
def delete_node (conn : Bool) (s : Store) (node_id : String) : Store :=
  match dbCall conn () with
  | .ok _ =>
      { nodes :=
          if (lookupKey s.nodes node_id).isSome then
            s.nodes.filter (fun p => !(p.1 == node_id))
          else s.nodes,
        edges := s.edges.filter (fun p => !(p.2.src == node_id || p.2.tgt == node_id)) }
  | .error _ => s

/-- One call of the injected embedding function.  It may raise (modelled as
`Except`), e.g. the default MD5 embedding raises on a `null` content. -/
abbrev EmbedFn := Option Val → Except String (List Int)

/-- The per-node embedding loop of `embed_nodes`: stops at the first raised
exception. -/
def embedAll (f : EmbedFn) : List (Option Val) → Except String (List (List Int))
  | [] => .ok []
  | c :: cs =>
      match f c with
      | .error e => .error e
      | .ok emb =>
          match embedAll f cs with
          | .error e => .error e
          | .ok rest => .ok (emb :: rest)

/-- Model of `embed_nodes` (lines 429-454): reads every node as
`\x7bid: node._key, content: node.content\x7d` (AQL yields `content: null`
when the attribute is missing, so the dict key is always present and
`node.get("content", node["id"])` returns that value, never the fallback),
embeds each content in order, and returns the matrix together with the
parallel id list; an empty collection yields `(np.array([]), [])`, and any
exception is caught and also yields `(np.array([]), [])`. -/
def embed_nodes (conn : Bool) (f : EmbedFn) (s : Store) (_algorithm : String) :
    List (List Int) × List String :=
  match dbCall conn (s.nodes.map (fun p => (p.1, lookupKey p.2 "content"))) with
  | .error _ => ([], [])
  | .ok nodeRows =>
      if nodeRows.isEmpty then ([], [])
      else
        let node_ids := nodeRows.map (fun n => n.1)
        let contents := nodeRows.map (fun n => n.2)
        match embedAll f contents with
        | .ok embeddings => (embeddings, node_ids)
        | .error _ => ([], [])

/-- The Python exception types `__post_init__` and its helpers raise:
`ValueError` for missing configuration keys (the ConfigurationError role),
`ConnectionError` when `_init_connection` fails, `RuntimeError` when
`_init_collections` fails. -/
inductive InitError where
  | valueError : List String → InitError
  | connectionError : String → InitError
  | runtimeError : String → InitError


/-- The configuration keys `__post_init__` requires (line 75). -/
def required_keys : List String := ["host", "port", "username", "password", "database"]

/-- Model of `missing_keys` (line 76): the required keys absent from the resolved
`arangodb` configuration dict. -/
def missing_keys (config : Doc) : List String :=
  required_keys.filter (fun k => (lookupKey config k).isNone)

/-- Outcome of running `__post_init__`: the raised error (if any) and whether
`_init_connection` was reached. -/
structure InitTrace where
  result : Except InitError Unit
  connectionAttempted : Bool


/-- Model of `__post_init__` (lines 68-95) together with `_init_connection`
(lines 97-118) and `_init_collections` (lines 120-160): configuration is
validated first and a `ValueError` listing the missing keys is raised before
any connection is attempted; with a complete configuration the client is built
and the `db.version()` probe runs (`probeOk` is the oracle for that whole
block), any failure there becoming a `ConnectionError`; afterwards collection
provisioning runs (`collectionsOk`), any failure there becoming a
`RuntimeError`. -/
def post_init (config : Doc) (probeOk collectionsOk : Bool) : InitTrace :=
  if missing_keys config ≠ [] then
    ⟨.error (.valueError (missing_keys config)), false⟩
  else if ¬ probeOk then
    ⟨.error (.connectionError "ArangoDB connection failed"), true⟩
  else if ¬ collectionsOk then
    ⟨.error (.runtimeError "Collection initialization failed"), true⟩
  else ⟨.ok (), true⟩

/-- A populated demo store: nodes `a`, `b`, `c` and edges `(a, b)`, `(b, c)`
(the scenario of spec section 8). -/
def demoStore : Store :=
  (upsert_edge true
    (upsert_edge true
      (upsert_node true
        (upsert_node true
          (upsert_node true emptyStore "a" []).1
          "b" []).1
        "c" []).1
      "a" "b" []).1
    "b" "c" []).1

/-- A store already holding the edge `(a, b)`. -/
def c2Store : Store := (upsert_edge true emptyStore "a" "b" []).1

/-- A store holding one self-loop edge `(a, a)`. -/
def c4Store : Store := (upsert_edge true emptyStore "a" "a" []).1

/-- A store holding the edge of the ordered pair `("a_to_b", "c")`. -/
def c10StoreA : Store :=
  (upsert_edge true emptyStore "a_to_b" "c" [("w", Val.int 1)]).1

/-- The store `c10StoreA` after upserting the edge of the distinct ordered pair
`("a", "b_to_c")`, whose derived storage key collides. -/
def c10StoreB : Store :=
  (upsert_edge true c10StoreA "a" "b_to_c" [("w", Val.int 2)]).1

/-- A complete connection configuration carrying all five required keys. -/
def fullConfig : Doc :=
  [("host", Val.str "localhost"), ("port", Val.int 8529),
   ("username", Val.str "root"), ("password", Val.str "pw"),
   ("database", Val.str "pathrag")]

/-- An embedding callback that always succeeds with an empty vector. -/
def zeroEmbed : EmbedFn := fun _ => .ok []

/-! ## Helper lemmas on the association-list primitives -/

theorem lookupKey_insertOverwrite_self {α : Type} (l : List (String × α)) (k : String) (v : α) :
    lookupKey (insertOverwrite l k v) k = some v := by
  induction l with
  | nil => simp [insertOverwrite, lookupKey]
  | cons hd tl ih =>
      obtain ⟨k₀, v₀⟩ := hd
      by_cases h : k₀ = k <;> simp [insertOverwrite, lookupKey, h, ih]

theorem insertOverwrite_idem {α : Type} (l : List (String × α)) (k : String) (v : α) :
    insertOverwrite (insertOverwrite l k v) k v = insertOverwrite l k v := by
  induction l with
  | nil => simp [insertOverwrite]
  | cons hd tl ih =>
      obtain ⟨k₀, v₀⟩ := hd
      by_cases h : k₀ = k <;> simp [insertOverwrite, h, ih]

theorem insertOverwrite_of_lookup_none {α : Type} (l : List (String × α)) (k : String) (v : α)
    (h : lookupKey l k = none) : insertOverwrite l k v = l ++ [(k, v)] := by
  induction l with
  | nil => simp [insertOverwrite]
  | cons hd tl ih =>
      obtain ⟨k₀, v₀⟩ := hd
      by_cases hk : k₀ = k
      · simp [lookupKey, hk] at h
      · simp [lookupKey, hk] at h
        simp [insertOverwrite, hk, ih h]

theorem lookupKey_filter_ne {α : Type} (l : List (String × α)) (k : String) :
    lookupKey (l.filter (fun p => !(p.1 == k))) k = none := by
  induction l with
  | nil => simp [lookupKey]
  | cons hd tl ih =>
      obtain ⟨k₀, v₀⟩ := hd
      by_cases h : k₀ = k <;> simp [List.filter_cons, lookupKey, h, ih]

theorem embedAll_ok_length (f : EmbedFn) (cs : List (Option Val)) (es : List (List Int))
    (h : embedAll f cs = .ok es) : es.length = cs.length := by
  induction cs generalizing es with
  | nil =>
      simp [embedAll] at h
      simp [← h]
  | cons c cs ih =>
      simp only [embedAll] at h
      cases hf : f c with
      | error e => simp [hf] at h
      | ok e =>
          simp only [hf] at h
          cases hr : embedAll f cs with
          | error e2 => simp [hr] at h
          | ok rest =>
              simp [hr] at h
              simp [← h, ih rest hr]

/-! ## Claim theorems -/

/-- Claim C4, counterexample: the claim says the combined view returned by
`get_node_edges` contains each `(source, target)` pair at most once, even for a
self-loop.  In a store holding the single self-loop edge `(a, a)`, the AQL
`UNION` keeps duplicates, so the combined view lists the pair `(a, a)` twice. -/
theorem get_node_edges_selfloop_duplicated :
    ¬ ((get_node_edges true c4Store "a").count ("a", "a") ≤ 1) := by decide

/-- Claim C4, amended: the combined view returned by `get_node_edges` is the
concatenation of the out-edges view (source = id) followed by the in-edges view
(target = id); it is not de-duplicated, so a self-loop edge `(id, id)`
contributes one pair to each part and hence appears twice. -/
theorem get_node_edges_eq_out_append_in (conn : Bool) (s : Store) (node_id : String) :
    get_node_edges conn s node_id
      = get_node_out_edges conn s node_id ++ get_node_in_edges conn s node_id := by
  cases conn <;> rfl

/-- Claim C6: `has_node` never raises; it returns `false` for a missing node,
and when the underlying existence check itself fails (connection down) the
exception is swallowed and `false` is returned as well. -/
theorem has_node_never_raises (s : Store) (node_id : String) :
    has_node false s node_id = false ∧
    (lookupKey s.nodes node_id = none → has_node true s node_id = false) := by
  refine ⟨rfl, fun h => ?_⟩
  simp [has_node, dbCall, h]

/-- Witness for C6 at concrete inputs: the existence check under a broken
connection, and for a node id absent from the demo store. -/
theorem has_node_never_raises_witness :
    has_node false demoStore "a" = false ∧ has_node true demoStore "zz" = false :=
  ⟨(has_node_never_raises demoStore "a").1,
   (has_node_never_raises demoStore "zz").2 rfl⟩

/-- Claim C7: `upsert_node` never throws past its boundary: it is a total
function returning a structured result that names the node, indicates success
or failure, and on failure carries the causal error message. -/
theorem upsert_node_result_shape (conn : Bool) (s : Store) (node_id : String)
    (node_data : Doc) :
    (upsert_node conn s node_id node_data).2.node_id = node_id ∧
    (((upsert_node conn s node_id node_data).2.success = true ∧
        (upsert_node conn s node_id node_data).2.error = none) ∨
      ((upsert_node conn s node_id node_data).2.success = false ∧
        ((upsert_node conn s node_id node_data).2.error).isSome = true)) := by
  cases conn <;> simp [upsert_node, dbCall]

/-- Claim C8: upsert is replace-on-conflict (wholesale overwrite): performing
`upsert_node id A` twice in succession yields a stored state identical to
performing it once, the returned results agree, the subsequent `get_node id`
output is identical, and that output is exactly the freshly built document
(independent of any previous document under `id`). -/
theorem upsert_node_idempotent (s : Store) (node_id : String) (A : Doc) :
    (upsert_node true (upsert_node true s node_id A).1 node_id A).1
        = (upsert_node true s node_id A).1 ∧
    (upsert_node true (upsert_node true s node_id A).1 node_id A).2
        = (upsert_node true s node_id A).2 ∧
    get_node true (upsert_node true (upsert_node true s node_id A).1 node_id A).1 node_id
        = get_node true (upsert_node true s node_id A).1 node_id ∧
    get_node true (upsert_node true s node_id A).1 node_id
        = some (pyDict (("_key", Val.str node_id) :: serializePairs A)) := by
  refine ⟨?_, rfl, ?_, ?_⟩
  · simp [upsert_node, dbCall, insertOverwrite_idem]
  · simp [upsert_node, get_node, dbCall, insertOverwrite_idem]
  · simp [upsert_node, get_node, dbCall, lookupKey_insertOverwrite_self]

/-- Claim C10: the edge storage-key derivation `source ++ "_to_" ++ target` is
not injective over ordered pairs: the distinct pairs `("a_to_b", "c")` and
`("a", "b_to_c")` derive the same key, so upserting the second pair replaces
the stored edge of the first (one stored edge remains, holding the latest
payload), and `has_edge`/`get_edge` for either pair observe that same single
document. -/
theorem edge_key_not_injective :
    edgeKey "a_to_b" "c" = edgeKey "a" "b_to_c" ∧
    ("a_to_b", "c") ≠ (("a", "b_to_c") : String × String) ∧
    c10StoreB.edges.length = 1 ∧
    has_edge true c10StoreB "a_to_b" "c" = true ∧
    has_edge true c10StoreB "a" "b_to_c" = true ∧
    get_edge true c10StoreB "a_to_b" "c" = get_edge true c10StoreB "a" "b_to_c" ∧
    get_edge true c10StoreB "a" "b_to_c"
      = some ⟨"a", "b_to_c", [("w", Val.int 2)]⟩ := by
  refine ⟨rfl, by decide, rfl, by decide, by decide, rfl, rfl⟩

/-- Claim C1: `delete_node` removes first every edge whose source or target
equals the node id and then the node document itself: afterwards the node is
absent and no stored edge references it in either direction; the edges kept
are exactly the incident-edge sweep; when the node does not exist the node
collection is untouched (a no-op, not an error — the function is total) while
the edge sweep still runs. -/
theorem delete_node_cascade (s : Store) (node_id : String) :
    lookupKey (delete_node true s node_id).nodes node_id = none ∧
    (∀ p ∈ (delete_node true s node_id).edges, p.2.src ≠ node_id ∧ p.2.tgt ≠ node_id) ∧
    (delete_node true s node_id).edges
      = s.edges.filter (fun p => !(p.2.src == node_id || p.2.tgt == node_id)) ∧
    (lookupKey s.nodes node_id = none → (delete_node true s node_id).nodes = s.nodes) := by
  have hd : delete_node true s node_id
      = { nodes :=
            if (lookupKey s.nodes node_id).isSome then
              s.nodes.filter (fun p => !(p.1 == node_id))
            else s.nodes,
          edges := s.edges.filter (fun p => !(p.2.src == node_id || p.2.tgt == node_id)) } := rfl
  refine ⟨?_, ?_, by rw [hd], fun h => by rw [hd]; simp [h]⟩
  · rw [hd]
    by_cases h : (lookupKey s.nodes node_id).isSome
    · simp [h, lookupKey_filter_ne]
    · simp only [h, if_false, Bool.false_eq_true]
      exact Option.not_isSome_iff_eq_none.mp h
  · intro p hp
    rw [hd] at hp
    simp only [List.mem_filter, Bool.not_eq_eq_eq_not, Bool.not_true, Bool.or_eq_false_iff,
      beq_eq_false_iff_ne, ne_eq] at hp
    exact ⟨hp.2.1, hp.2.2⟩

/-- Witness for C1 at concrete inputs: deleting the present node `b` of the
demo store leaves it absent, and deleting the absent node `zz` leaves the node
collection untouched. -/
theorem delete_node_cascade_witness :
    lookupKey (delete_node true demoStore "b").nodes "b" = none ∧
    (delete_node true demoStore "zz").nodes = demoStore.nodes :=
  ⟨(delete_node_cascade demoStore "b").1,
   (delete_node_cascade demoStore "zz").2.2.2 rfl⟩

/-- Claim C2, counterexample: the claim states that upserting the edge
`(a, b)` always increases the degree of `a` by exactly 1; in a store already
holding the edge `(a, b)` the upsert replaces the stored document under the
same derived key, and the degree of `a` stays at 1 instead of becoming 2. -/
theorem upsert_edge_degree_counterexample :
    ¬ (node_degree true (upsert_edge true c2Store "a" "b" []).1 "a"
        = node_degree true c2Store "a" + 1) := by decide

/-- Claim C2, amended: provided no stored edge already occupies the derived
key `source ++ "_to_" ++ target`, upserting the edge `(a, b)` with distinct
endpoints increases the degree of `a` and the degree of `b` by exactly 1 each,
and upserting a self-loop `(a, a)` increases the degree of `a` by exactly 2
(degree counts once per direction). -/
theorem upsert_edge_degree (s : Store) (a b : String) (d : Doc)
    (hfresh : lookupKey s.edges (edgeKey a b) = none) :
    (a ≠ b →
      node_degree true (upsert_edge true s a b d).1 a = node_degree true s a + 1 ∧
      node_degree true (upsert_edge true s a b d).1 b = node_degree true s b + 1) ∧
    (a = b →
      node_degree true (upsert_edge true s a b d).1 a = node_degree true s a + 2) := by
  have he : (upsert_edge true s a b d).1.edges
      = s.edges ++ [(edgeKey a b, ⟨a, b, serializePairs d⟩)] := by
    simp [upsert_edge, dbCall, insertOverwrite_of_lookup_none _ _ _ hfresh]
  constructor
  · intro hab
    constructor
    · simp [node_degree, dbCall, outEdges, inEdges, he, List.filter_append,
        List.filter_cons, Ne.symm hab]
      omega
    · simp [node_degree, dbCall, outEdges, inEdges, he, List.filter_append,
        List.filter_cons, hab]
      omega
  · intro hab
    subst hab
    simp [node_degree, dbCall, outEdges, inEdges, he, List.filter_append,
      List.filter_cons]
    omega

/-- Witness for C2 at concrete inputs: a fresh edge `(a, b)` on the empty
store raises both endpoint degrees from 0 to 1, and a fresh self-loop
`(c, c)` raises the degree of `c` from 0 to 2. -/
theorem upsert_edge_degree_witness :
    node_degree true (upsert_edge true emptyStore "a" "b" []).1 "a"
        = node_degree true emptyStore "a" + 1 ∧
    node_degree true (upsert_edge true emptyStore "c" "c" []).1 "c"
        = node_degree true emptyStore "c" + 2 :=
  ⟨((upsert_edge_degree emptyStore "a" "b" [] rfl).1 (by decide)).1,
   (upsert_edge_degree emptyStore "c" "c" [] rfl).2 rfl⟩

/-- Claim C3: `get_pagerank` returns a value in the interval `[0, 1]`; with a
live connection it equals `1 / reachable_count` where `reachable_count` is the
size of the bounded-depth (at most 10 hops) traversal sample from the node
when that sample is non-empty, and `0` otherwise. -/
theorem get_pagerank_formula (conn : Bool) (s : Store) (node_id : String) :
    0 ≤ get_pagerank conn s node_id ∧ get_pagerank conn s node_id ≤ 1 ∧
    get_pagerank true s node_id
      = (if reachCount s node_id > 0 then (1 : ℚ) / (reachCount s node_id) else 0) := by
  refine ⟨?_, ?_, rfl⟩
  · cases conn
    · simp [get_pagerank, dbCall]
    · simp only [get_pagerank, dbCall, if_true]
      split
      · positivity
      · exact le_refl 0
  · cases conn
    · simp [get_pagerank, dbCall]
    · simp only [get_pagerank, dbCall, if_true]
      split
      · next h => exact div_le_one_of_le₀ (Nat.one_le_cast.mpr h) (Nat.cast_nonneg _)
      · exact zero_le_one

/-- Claim C5: construction validates the configuration first — a missing
`host`, `port`, `username`, `password` or `database` key raises the
configuration error (`ValueError` listing the missing keys) before any
connection is attempted; with a complete configuration a failing version probe
raises `ConnectionError`, a constructor distinct from the configuration
error. -/
theorem post_init_error_kinds (config : Doc) (probeOk collectionsOk : Bool) :
    (missing_keys config ≠ [] →
      (post_init config probeOk collectionsOk).result
          = .error (.valueError (missing_keys config)) ∧
      (post_init config probeOk collectionsOk).connectionAttempted = false) ∧
    (missing_keys config = [] → probeOk = false →
      (post_init config probeOk collectionsOk).result
          = .error (.connectionError "ArangoDB connection failed") ∧
      (post_init config probeOk collectionsOk).connectionAttempted = true) ∧
    (∀ m msg, InitError.valueError m ≠ InitError.connectionError msg) := by
  refine ⟨fun h => ?_, fun h hp => ?_, fun m msg h => InitError.noConfusion h⟩
  · simp [post_init, h]
  · simp [post_init, h, hp]

/-- Witness for C5 at concrete inputs: the empty configuration fails with the
configuration error before any connection attempt, and the complete
configuration with a failing probe fails with the connection error after an
attempt. -/
theorem post_init_error_kinds_witness :
    (post_init [] true true).result = .error (.valueError (missing_keys [])) ∧
    (post_init [] true true).connectionAttempted = false ∧
    (post_init fullConfig false true).result
        = .error (.connectionError "ArangoDB connection failed") ∧
    (post_init fullConfig false true).connectionAttempted = true := by
  have h1 := (post_init_error_kinds [] true true).1 (by decide)
  have h2 := (post_init_error_kinds fullConfig false true).2.1 rfl rfl
  exact ⟨h1.1, h1.2, h2.1, h2.2⟩

/-- Reduction of `embed_nodes` with a live connection: the result is governed
by the embedding loop over the content attributes of all nodes, the id list
being the parallel key list (when the collection is empty the loop trivially
returns the empty matrix, matching the early return). -/
theorem embed_nodes_true_eq (f : EmbedFn) (s : Store) (alg : String) :
    embed_nodes true f s alg
      = match embedAll f (s.nodes.map (fun p => lookupKey p.2 "content")) with
        | .ok es => (es, s.nodes.map (fun p => p.1))
        | .error _ => ([], []) := by
  cases hsn : s.nodes with
  | nil => simp [embed_nodes, dbCall, hsn, embedAll]
  | cons hd tl =>
      simp only [embed_nodes, dbCall, if_true, hsn, List.map_cons, List.isEmpty_cons,
        Bool.false_eq_true, if_false]
      have hc : (lookupKey hd.2 "content") :: (tl.map (fun p => (p.1, lookupKey p.2 "content"))).map
            (fun n => n.2) = (lookupKey hd.2 "content") :: tl.map (fun p => lookupKey p.2 "content") := by
        simp [List.map_map]
      have hi : (hd.1 :: (tl.map (fun p => (p.1, lookupKey p.2 "content"))).map (fun n => n.1))
          = hd.1 :: tl.map (fun p => p.1) := by
        simp [List.map_map]
      simp only [List.map_cons] at hc hi ⊢
      rw [hc, hi]

/-- Claim C9: `embed_nodes` on an empty node collection returns an empty
matrix and an empty identifier list and never an error (the function is
total); in every case the matrix and the identifier list have equal length,
and whenever the result is non-trivial the identifiers are exactly the node
keys in collection order with the matrix produced by the embedding loop over
the matching content attributes. -/
theorem embed_nodes_empty_and_aligned (conn : Bool) (f : EmbedFn) (s : Store) (alg : String) :
    (s.nodes = [] → embed_nodes conn f s alg = ([], [])) ∧
    (embed_nodes conn f s alg).1.length = (embed_nodes conn f s alg).2.length ∧
    (embed_nodes conn f s alg = ([], []) ∨
      ((embed_nodes conn f s alg).2 = s.nodes.map (fun p => p.1) ∧
        embedAll f (s.nodes.map (fun p => lookupKey p.2 "content"))
          = .ok (embed_nodes conn f s alg).1)) := by
  cases conn with
  | false => exact ⟨fun _ => rfl, rfl, Or.inl rfl⟩
  | true =>
      have he := embed_nodes_true_eq f s alg
      refine ⟨fun h => ?_, ?_, ?_⟩
      · rw [he]
        simp [h, embedAll]
      · rw [he]
        cases hE : embedAll f (s.nodes.map (fun p => lookupKey p.2 "content")) with
        | error e => simp
        | ok es =>
            have := embedAll_ok_length f _ es hE
            simp only [List.length_map] at this
            simp [this]
      · rw [he]
        cases hE : embedAll f (s.nodes.map (fun p => lookupKey p.2 "content")) with
        | error e => exact Or.inl rfl
        | ok es => exact Or.inr ⟨rfl, rfl⟩

/-- Witness for C9 at a concrete input: bulk embedding of the empty namespace
returns the empty matrix and the empty identifier list. -/
theorem embed_nodes_empty_witness :
    embed_nodes true zeroEmbed emptyStore "node2vec" = ([], []) :=
  (embed_nodes_empty_and_aligned true zeroEmbed emptyStore "node2vec").1 rfl

end PathRAG
